import Mathlib

/-!
Verification of the constraint-widget geometry derivation of
`Fem::Constraint` (FemConstraint.h) and of the `TechDraw::DrawPage`
balloon-index / Scale-restore logic (DrawPage.cpp).

The repository excerpt contains only the declaration header of
`Fem::Constraint`: the bodies of `getPoints`, `calcDrawScaleFactor` and
`getCylinder` are not in the excerpt.  Those operations are therefore
modelled from the specification document (each such definition carries a
doc comment starting with `Modelled from the spec:`).  The `DrawPage`
member functions are translated directly from the source in the excerpt.

Real-valued quantities (C++ `double`) are modelled as exact rationals;
C++ `int` is modelled as `Int` (the quantities involved are far from the
machine-word bounds and no overflow behaviour is specified).
-/

/-- A 3D vector with rational coordinates, modelling `Base::Vector3d`
(whose `double` components are modelled exactly). -/
structure Vec3 where
  x : ℚ
  y : ℚ
  z : ℚ
deriving DecidableEq, Repr

def Vec3.add (a b : Vec3) : Vec3 :=
  ⟨a.x + b.x, a.y + b.y, a.z + b.z⟩

def Vec3.sub (a b : Vec3) : Vec3 :=
  ⟨a.x - b.x, a.y - b.y, a.z - b.z⟩

def Vec3.smul (c : ℚ) (v : Vec3) : Vec3 :=
  ⟨c * v.x, c * v.y, c * v.z⟩

instance : Add Vec3 :=
  ⟨Vec3.add⟩

instance : Sub Vec3 :=
  ⟨Vec3.sub⟩

instance : SMul ℚ Vec3 :=
  ⟨Vec3.smul⟩

/-- Squared Euclidean norm of a `Vec3`; a direction is a unit vector
exactly when its `normSq` is `1`. -/
def Vec3.normSq (v : Vec3) : ℚ :=
  v.x * v.x + v.y * v.y + v.z * v.z

/-- Modelled from the spec: the empirical bucketing table at the heart of
`Fem::Constraint::calcDrawScaleFactor` (implementation absent from the
excerpt).  The spec describes it as a monotonic non-linear bucketing from
a magnitude to a small positive integer, smaller magnitudes giving a
larger factor; the concrete breakpoints below are model constants
standing in for the opaque tuning table. -/
def bucket (l : ℚ) : ℤ :=
  if l < 1 then 5
  else if l < 10 then 4
  else if l < 100 then 3
  else if l < 1000 then 2
  else 1

/-- Modelled from the spec: the one-argument overload
`Fem::Constraint::calcDrawScaleFactor(double lparam)` (implementation
absent from the excerpt).  It maps the magnitude of a length measurement
through the empirical bucketing table. -/
def calcDrawScaleFactor (lparam : ℚ) : ℤ :=
  bucket |lparam|

/-- Modelled from the spec: the two-argument overload
`Fem::Constraint::calcDrawScaleFactor(double lvparam, double luparam)`
(implementation absent from the excerpt).  The spec says the two
parametric extents are combined (e.g. via their product) before
bucketing. -/
def calcDrawScaleFactor2 (lvparam luparam : ℚ) : ℤ :=
  bucket (|lvparam| * |luparam|)

/-- Modelled from the spec: the zero-argument overload
`Fem::Constraint::calcDrawScaleFactor()` (implementation absent from the
excerpt; its header doc states it always returns the integer 1). -/
def calcDrawScaleFactor0 : ℤ :=
  1

lemma bucket_pos (l : ℚ) : 0 < bucket l := by
  unfold bucket
  split_ifs <;> norm_num

lemma bucket_anti {a b : ℚ} (h : a ≤ b) : bucket b ≤ bucket a := by
  unfold bucket
  split_ifs
  all_goals try norm_num
  all_goals linarith

/-- Claim C5: the one-argument `calcDrawScaleFactor` and the two-argument
`calcDrawScaleFactor2` are monotonically non-increasing in the magnitude
of their inputs (pointwise in each argument for the two-argument form),
and both always return a strictly positive integer. -/
theorem calcDrawScaleFactor_mono_pos :
    ∀ x y : ℚ,
      0 < calcDrawScaleFactor x ∧
      0 < calcDrawScaleFactor2 x y ∧
      (∀ x2 : ℚ, |x| ≤ |x2| → calcDrawScaleFactor x2 ≤ calcDrawScaleFactor x) ∧
      (∀ x2 : ℚ, |x| ≤ |x2| → calcDrawScaleFactor2 x2 y ≤ calcDrawScaleFactor2 x y) ∧
      (∀ y2 : ℚ, |y| ≤ |y2| → calcDrawScaleFactor2 x y2 ≤ calcDrawScaleFactor2 x y) := by
  intro x y
  refine ⟨bucket_pos _, bucket_pos _, ?_, ?_, ?_⟩
  · intro x2 h
    exact bucket_anti h
  · intro x2 h
    exact bucket_anti (mul_le_mul_of_nonneg_right h (abs_nonneg _))
  · intro y2 h
    exact bucket_anti (mul_le_mul_of_nonneg_left h (abs_nonneg _))

/-- Witness for C5 at concrete inputs. -/
theorem calcDrawScaleFactor_mono_pos_witness :
    0 < calcDrawScaleFactor 5 ∧ 0 < calcDrawScaleFactor2 5 7 ∧
    calcDrawScaleFactor 50 ≤ calcDrawScaleFactor 5 ∧
    calcDrawScaleFactor2 50 7 ≤ calcDrawScaleFactor2 5 7 ∧
    calcDrawScaleFactor2 5 70 ≤ calcDrawScaleFactor2 5 7 := by
  obtain ⟨h1, h2, h3, h4, h5⟩ := calcDrawScaleFactor_mono_pos 5 7
  exact ⟨h1, h2, h3 50 (by norm_num), h4 50 (by norm_num), h5 70 (by norm_num)⟩

/-- Claim C6: the zero-argument overload `calcDrawScaleFactor0` returns
the integer 1 on every call. -/
theorem calcDrawScaleFactor0_eq_one : calcDrawScaleFactor0 = 1 :=
  rfl

/-- Modelled from the spec: the number of segments used when sampling an
edge in `Fem::Constraint::getPoints` (implementation absent from the
excerpt).  An edge whose parametric length is at or below the density
threshold (a model constant, here 30) is sampled with a single segment
(its two endpoints only); a longer edge gets one segment per fixed step
(a model constant, here 10), so longer edges are sampled more densely. -/
def edgeSteps (l : ℚ) : ℕ :=
  if l ≤ 30 then 1 else (Int.floor (l / 10)).toNat

/-- Modelled from the spec: the sample points emitted for an edge by
`Fem::Constraint::getPoints`, evenly spaced from the first endpoint [i = 0]
to the last [i = edgeSteps l]. -/
def edgePoints (p1 p2 : Vec3) (l : ℚ) : List Vec3 :=
  (List.range (edgeSteps l + 1)).map
    (fun (i : ℕ) => p1 + ((i : ℚ) / (edgeSteps l : ℚ)) • (p2 - p1))

/-- Modelled from the spec: grid resolution per parametric direction for
a planar face in `Fem::Constraint::getPoints` (implementation absent from
the excerpt): larger parametric extent gives more sample points. -/
def faceDivs (l : ℚ) : ℕ :=
  (Int.floor (l / 10)).toNat + 1

/-- Modelled from the spec: sample points of the planar-face grid, laid
out from an origin along the two parametric step vectors. -/
def gridPoints (origin du dv : Vec3) (uLen vLen : ℚ) : List Vec3 :=
  (List.range (faceDivs uLen)).flatMap
    (fun (i : ℕ) => (List.range (faceDivs vLen)).map
      (fun (j : ℕ) => origin + (i : ℚ) • du + (j : ℚ) • dv))

/-- Modelled from the spec: a resolved reference as consumed by
`Fem::Constraint::getPoints`.  The shape-resolution service is a black
box, so a reference is modelled as the typed geometric handle it
resolves to: a vertex location; an edge with its endpoints and
parametric length; a planar face with origin, step vectors, constant
normal and parametric extents; a cylindrical face with radius, height,
base and axis; or an unsupported/failing reference (covering unsupported
subelements, missing subelements and degenerate geometry whose kernel
queries fail). -/
inductive ShapeRef where
  | vertex (loc : Vec3)
  | edge (p1 p2 : Vec3) (l : ℚ)
  | planarFace (origin du dv n : Vec3) (uLen vLen : ℚ)
  | cylFace (radius height : ℚ) (base axis : Vec3)
  | unsupported
deriving DecidableEq, Repr

/-- The output state accumulated by `Fem::Constraint::getPoints`: the
points vector, the parallel normals vector, the running scale and the
success flag. -/
structure GPState where
  points : List Vec3
  normals : List Vec3
  scale : ℤ
  ok : Bool
deriving DecidableEq, Repr

/-- Points contributed to the output by one reference. -/
def refPoints (dn : Vec3) : ShapeRef → List Vec3
  | ShapeRef.vertex loc => [loc]
  | ShapeRef.edge p1 p2 l => edgePoints p1 p2 l
  | ShapeRef.planarFace origin du dv _ uLen vLen => gridPoints origin du dv uLen vLen
  | ShapeRef.cylFace _ height base axis => [base, base + height • axis]
  | ShapeRef.unsupported => []

/-- Normals contributed to the output by one reference: the default
normal direction for vertices and edges, the face's own normal for each
planar-face sample, the axis for the cylindrical-face samples, nothing
for a failing reference. -/
def refNormals (dn : Vec3) : ShapeRef → List Vec3
  | ShapeRef.vertex _ => [dn]
  | ShapeRef.edge p1 p2 l => (edgePoints p1 p2 l).map (fun _ => dn)
  | ShapeRef.planarFace origin du dv n uLen vLen =>
      (gridPoints origin du dv uLen vLen).map (fun _ => n)
  | ShapeRef.cylFace _ _ _ axis => [axis, axis]
  | ShapeRef.unsupported => []

/-- The scale computed for one successfully processed reference: the
zero-argument default for a vertex, the one-argument form on the
parametric length for an edge, the two-argument form on the parametric
extents for a face. -/
def refScale : ShapeRef → ℤ
  | ShapeRef.vertex _ => calcDrawScaleFactor0
  | ShapeRef.edge _ _ l => calcDrawScaleFactor l
  | ShapeRef.planarFace _ _ _ _ uLen vLen => calcDrawScaleFactor2 uLen vLen
  | ShapeRef.cylFace radius height _ _ => calcDrawScaleFactor2 radius height
  | ShapeRef.unsupported => 0

/-- Whether processing a reference succeeds. -/
def refOk : ShapeRef → Bool
  | ShapeRef.unsupported => false
  | _ => true

/-- Modelled from the spec: the loop body of
`Fem::Constraint::getPoints` (implementation absent from the excerpt).
A supported reference appends its points and normals and overwrites the
running scale; a failing reference contributes nothing, clears the
success flag and the loop continues. -/
def processRef (dn : Vec3) (st : GPState) (r : ShapeRef) : GPState :=
  match r with
  | ShapeRef.unsupported =>
      { st with ok := false }
  | r =>
      { points := st.points ++ refPoints dn r
        normals := st.normals ++ refNormals dn r
        scale := refScale r
        ok := st.ok }

/-- Modelled from the spec: `Fem::Constraint::getPoints` (implementation
absent from the excerpt).  It folds the loop body over the reference
list in order, starting from empty output vectors, the default scale and
a set success flag. -/
def getPoints (refs : List ShapeRef) (dn : Vec3) : GPState :=
  refs.foldl (processRef dn) ⟨[], [], calcDrawScaleFactor0, true⟩

lemma processRef_points (dn : Vec3) (st : GPState) (r : ShapeRef) :
    (processRef dn st r).points = st.points ++ refPoints dn r := by
  cases r <;> simp [processRef, refPoints]

lemma processRef_normals (dn : Vec3) (st : GPState) (r : ShapeRef) :
    (processRef dn st r).normals = st.normals ++ refNormals dn r := by
  cases r <;> simp [processRef, refNormals]

lemma processRef_ok (dn : Vec3) (st : GPState) (r : ShapeRef) :
    (processRef dn st r).ok = (st.ok && refOk r) := by
  cases r <;> simp [processRef, refOk]

lemma foldl_points (dn : Vec3) :
    ∀ (refs : List ShapeRef) (st : GPState),
      (List.foldl (processRef dn) st refs).points =
        st.points ++ refs.flatMap (refPoints dn) := by
  intro refs
  induction refs with
  | nil => intro st; simp
  | cons r rs ih =>
      intro st
      simp only [List.foldl_cons, List.flatMap_cons, ih, processRef_points,
        List.append_assoc]

lemma foldl_normals (dn : Vec3) :
    ∀ (refs : List ShapeRef) (st : GPState),
      (List.foldl (processRef dn) st refs).normals =
        st.normals ++ refs.flatMap (refNormals dn) := by
  intro refs
  induction refs with
  | nil => intro st; simp
  | cons r rs ih =>
      intro st
      simp only [List.foldl_cons, List.flatMap_cons, ih, processRef_normals,
        List.append_assoc]

lemma foldl_ok (dn : Vec3) :
    ∀ (refs : List ShapeRef) (st : GPState),
      (List.foldl (processRef dn) st refs).ok = (st.ok && refs.all refOk) := by
  intro refs
  induction refs with
  | nil => intro st; simp
  | cons r rs ih =>
      intro st
      simp only [List.foldl_cons, List.all_cons, ih, processRef_ok,
        Bool.and_assoc]

lemma refPoints_refNormals_length (dn : Vec3) (r : ShapeRef) :
    (refPoints dn r).length = (refNormals dn r).length := by
  cases r <;> simp [refPoints, refNormals]

lemma getPoints_points_eq (refs : List ShapeRef) (dn : Vec3) :
    (getPoints refs dn).points = refs.flatMap (refPoints dn) := by
  unfold getPoints
  rw [foldl_points]
  rfl

lemma getPoints_normals_eq (refs : List ShapeRef) (dn : Vec3) :
    (getPoints refs dn).normals = refs.flatMap (refNormals dn) := by
  unfold getPoints
  rw [foldl_normals]
  rfl

lemma flatMap_zip_eq (dn : Vec3) :
    ∀ refs : List ShapeRef,
      (refs.flatMap (refPoints dn)).zip (refs.flatMap (refNormals dn)) =
        refs.flatMap (fun r => (refPoints dn r).zip (refNormals dn r)) := by
  intro refs
  induction refs with
  | nil => simp
  | cons r rs ih =>
      simp only [List.flatMap_cons]
      rw [List.zip_append (refPoints_refNormals_length dn r), ih]

/-- Claim C1: on every input reference list, success or failure, the
points and normals sequences produced by `getPoints` have equal length,
and the two sequences are index-paired: zipped together they decompose
as the per-reference (point, normal) pairs in order, so the i-th normal
is the one generated together with the i-th point. -/
theorem getPoints_parallel_sequences :
    ∀ (refs : List ShapeRef) (dn : Vec3),
      (getPoints refs dn).points.length = (getPoints refs dn).normals.length ∧
      (getPoints refs dn).points.zip (getPoints refs dn).normals =
        refs.flatMap (fun r => (refPoints dn r).zip (refNormals dn r)) := by
  intro refs dn
  rw [getPoints_points_eq, getPoints_normals_eq]
  constructor
  · induction refs with
    | nil => simp
    | cons r rs ih => simp [refPoints_refNormals_length dn r, ih]
  · exact flatMap_zip_eq dn refs

/-- Claim C2: a reference list with a failing reference makes
`getPoints` return `ok = false`, independent of whatever comes after the
failing reference (so later successful references never reset the flag),
while the points and normals contributed by the references before the
failing one are still present, in order, as a prefix of the output. -/
theorem getPoints_partial_failure :
    ∀ (l1 l2 : List ShapeRef) (dn : Vec3),
      (getPoints (l1 ++ ShapeRef.unsupported :: l2) dn).ok = false ∧
      (getPoints (l1 ++ ShapeRef.unsupported :: l2) dn).points =
        (getPoints l1 dn).points ++ l2.flatMap (refPoints dn) ∧
      (getPoints (l1 ++ ShapeRef.unsupported :: l2) dn).normals =
        (getPoints l1 dn).normals ++ l2.flatMap (refNormals dn) := by
  intro l1 l2 dn
  refine ⟨?_, ?_, ?_⟩
  · unfold getPoints
    rw [foldl_ok]
    simp [List.all_append, refOk]
  · rw [getPoints_points_eq, getPoints_points_eq]
    simp [List.flatMap_append, refPoints]
  · rw [getPoints_normals_eq, getPoints_normals_eq]
    simp [List.flatMap_append, refNormals]

/-- Claim C3: a reference resolving to a single vertex makes `getPoints`
emit exactly one point, the vertex location, with a normal equal to the
supplied default normal direction, and the scale computed for that
reference is the zero-argument `calcDrawScaleFactor0` default, which
is 1; the same holds for the vertex's contribution from any intermediate
state. -/
theorem getPoints_vertex :
    ∀ (loc dn : Vec3),
      (getPoints [ShapeRef.vertex loc] dn).points = [loc] ∧
      (getPoints [ShapeRef.vertex loc] dn).normals = [dn] ∧
      (getPoints [ShapeRef.vertex loc] dn).scale = calcDrawScaleFactor0 ∧
      calcDrawScaleFactor0 = 1 ∧
      ∀ st : GPState,
        (processRef dn st (ShapeRef.vertex loc)).points = st.points ++ [loc] ∧
        (processRef dn st (ShapeRef.vertex loc)).normals = st.normals ++ [dn] ∧
        (processRef dn st (ShapeRef.vertex loc)).scale = calcDrawScaleFactor0 := by
  intro loc dn
  refine ⟨rfl, rfl, rfl, rfl, ?_⟩
  intro st
  exact ⟨rfl, rfl, rfl⟩

@[simp] lemma Vec3.x_add (a b : Vec3) : (a + b).x = a.x + b.x := rfl

@[simp] lemma Vec3.y_add (a b : Vec3) : (a + b).y = a.y + b.y := rfl

@[simp] lemma Vec3.z_add (a b : Vec3) : (a + b).z = a.z + b.z := rfl

@[simp] lemma Vec3.x_sub (a b : Vec3) : (a - b).x = a.x - b.x := rfl

@[simp] lemma Vec3.y_sub (a b : Vec3) : (a - b).y = a.y - b.y := rfl

@[simp] lemma Vec3.z_sub (a b : Vec3) : (a - b).z = a.z - b.z := rfl

@[simp] lemma Vec3.x_smul (c : ℚ) (v : Vec3) : (c • v).x = c * v.x := rfl

@[simp] lemma Vec3.y_smul (c : ℚ) (v : Vec3) : (c • v).y = c * v.y := rfl

@[simp] lemma Vec3.z_smul (c : ℚ) (v : Vec3) : (c • v).z = c * v.z := rfl

lemma vec3_eq {a b : Vec3} (hx : a.x = b.x) (hy : a.y = b.y) (hz : a.z = b.z) :
    a = b := by
  cases a
  cases b
  simp_all

lemma add_zero_smul_sub (p1 p2 : Vec3) : p1 + (0 : ℚ) • (p2 - p1) = p1 := by
  apply vec3_eq <;> simp

lemma add_one_smul_sub (p1 p2 : Vec3) : p1 + (1 : ℚ) • (p2 - p1) = p2 := by
  apply vec3_eq <;> simp

lemma le_floor_div_ten {l : ℚ} (h : 30 < l) : (3 : ℤ) ≤ Int.floor (l / 10) := by
  rw [Int.le_floor]
  push_cast
  linarith

lemma edgeSteps_pos (l : ℚ) : 1 ≤ edgeSteps l := by
  unfold edgeSteps
  split_ifs with h
  · exact le_refl 1
  · have h3 := le_floor_div_ten (not_le.mp h)
    omega

lemma edgeSteps_mono {l1 l2 : ℚ} (h : l1 ≤ l2) : edgeSteps l1 ≤ edgeSteps l2 := by
  unfold edgeSteps
  split_ifs with ha hb hb
  · exact le_refl 1
  · have h3 := le_floor_div_ten (not_le.mp hb)
    omega
  · exact absurd (le_trans h hb) ha
  · have hf : Int.floor (l1 / 10) ≤ Int.floor (l2 / 10) :=
      Int.floor_le_floor (by linarith)
    omega

lemma edgePoints_length (p1 p2 : Vec3) (l : ℚ) :
    (edgePoints p1 p2 l).length = edgeSteps l + 1 := by
  unfold edgePoints
  rw [List.length_map, List.length_range]

lemma edgePoints_head (p1 p2 : Vec3) (l : ℚ) :
    (edgePoints p1 p2 l).head? = some p1 := by
  unfold edgePoints
  rw [List.range_succ_eq_map]
  simp [add_zero_smul_sub]

lemma edgePoints_getLast (p1 p2 : Vec3) (l : ℚ) :
    (edgePoints p1 p2 l).getLast? = some p2 := by
  have hn : ((edgeSteps l : ℕ) : ℚ) ≠ 0 :=
    Nat.cast_ne_zero.mpr (Nat.one_le_iff_ne_zero.mp (edgeSteps_pos l))
  unfold edgePoints
  rw [List.range_succ]
  simp [div_self hn, add_one_smul_sub]

lemma getPoints_single_edge (p1 p2 : Vec3) (l : ℚ) (dn : Vec3) :
    (getPoints [ShapeRef.edge p1 p2 l] dn).points = edgePoints p1 p2 l := by
  rw [getPoints_points_eq]
  simp [refPoints]

/-- Claim C4: an edge reference makes `getPoints` emit at least its two
endpoints (the first emitted point is the first endpoint, the last is
the second endpoint); an edge whose parametric length is at or below the
model's density threshold of 30 yields exactly 2 points, a longer edge
yields more than 2 points, and the emitted point count is monotonically
non-decreasing in the edge's parametric length. -/
theorem getPoints_edge_sampling :
    ∀ (p1 p2 dn : Vec3) (l : ℚ),
      (getPoints [ShapeRef.edge p1 p2 l] dn).points.head? = some p1 ∧
      (getPoints [ShapeRef.edge p1 p2 l] dn).points.getLast? = some p2 ∧
      2 ≤ (getPoints [ShapeRef.edge p1 p2 l] dn).points.length ∧
      (l ≤ 30 → (getPoints [ShapeRef.edge p1 p2 l] dn).points.length = 2) ∧
      (30 < l → 2 < (getPoints [ShapeRef.edge p1 p2 l] dn).points.length) ∧
      (∀ l2 : ℚ, l ≤ l2 →
        (getPoints [ShapeRef.edge p1 p2 l] dn).points.length ≤
          (getPoints [ShapeRef.edge p1 p2 l2] dn).points.length) := by
  intro p1 p2 dn l
  rw [getPoints_single_edge]
  refine ⟨edgePoints_head p1 p2 l, edgePoints_getLast p1 p2 l, ?_, ?_, ?_, ?_⟩
  · rw [edgePoints_length]
    have := edgeSteps_pos l
    omega
  · intro h
    rw [edgePoints_length]
    unfold edgeSteps
    rw [if_pos h]
  · intro h
    rw [edgePoints_length]
    have h3 := le_floor_div_ten h
    unfold edgeSteps
    rw [if_neg (not_le.mpr h)]
    omega
  · intro l2 h
    rw [getPoints_single_edge, edgePoints_length, edgePoints_length]
    have := edgeSteps_mono h
    omega

/-- Witness for C4 at concrete inputs: a short edge (length 5) yields
exactly 2 points, a long edge (length 40) yields more than 2, and the
counts are ordered. -/
theorem getPoints_edge_sampling_witness :
    (getPoints [ShapeRef.edge ⟨0, 0, 0⟩ ⟨1, 2, 3⟩ 5] ⟨0, 0, 1⟩).points.length = 2 ∧
    2 < (getPoints [ShapeRef.edge ⟨0, 0, 0⟩ ⟨1, 2, 3⟩ 40] ⟨0, 0, 1⟩).points.length ∧
    (getPoints [ShapeRef.edge ⟨0, 0, 0⟩ ⟨1, 2, 3⟩ 5] ⟨0, 0, 1⟩).points.length ≤
      (getPoints [ShapeRef.edge ⟨0, 0, 0⟩ ⟨1, 2, 3⟩ 40] ⟨0, 0, 1⟩).points.length := by
  obtain ⟨h1, h2, h3, h4, h5, h6⟩ :=
    getPoints_edge_sampling ⟨0, 0, 0⟩ ⟨1, 2, 3⟩ ⟨0, 0, 1⟩ 5
  obtain ⟨g1, g2, g3, g4, g5, g6⟩ :=
    getPoints_edge_sampling ⟨0, 0, 0⟩ ⟨1, 2, 3⟩ ⟨0, 0, 1⟩ 40
  exact ⟨h4 (by norm_num), g5 (by norm_num), h6 40 (by norm_num)⟩

lemma processRef_scale (dn : Vec3) (st : GPState) (r : ShapeRef)
    (h : refOk r = true) : (processRef dn st r).scale = refScale r := by
  cases r <;> simp_all [processRef, refScale, refOk]

/-- Claim C7: the scale returned by `getPoints` is the scale computed
for the last-processed (successful) reference; each processed reference
overwrites the running scale entirely, independent of whatever scale was
accumulated before, with no merging across references. -/
theorem getPoints_scale_last_write :
    ∀ (refs : List ShapeRef) (r : ShapeRef) (dn : Vec3),
      refOk r = true →
        (getPoints (refs ++ [r]) dn).scale = refScale r ∧
        ∀ st1 st2 : GPState,
          (processRef dn st1 r).scale = (processRef dn st2 r).scale := by
  intro refs r dn h
  constructor
  · unfold getPoints
    rw [List.foldl_append]
    exact processRef_scale dn _ r h
  · intro st1 st2
    rw [processRef_scale dn st1 r h, processRef_scale dn st2 r h]

/-- Witness for C7: after an edge followed by a vertex, the returned
scale is the vertex's scale (the zero-argument default). -/
theorem getPoints_scale_last_write_witness :
    (getPoints ([ShapeRef.edge ⟨0, 0, 0⟩ ⟨1, 0, 0⟩ 5] ++ [ShapeRef.vertex ⟨2, 2, 2⟩])
        ⟨0, 0, 1⟩).scale = refScale (ShapeRef.vertex ⟨2, 2, 2⟩) :=
  (getPoints_scale_last_write [ShapeRef.edge ⟨0, 0, 0⟩ ⟨1, 0, 0⟩ 5]
    (ShapeRef.vertex ⟨2, 2, 2⟩) ⟨0, 0, 1⟩ rfl).1

/-- Modelled from the spec: the surface classification reported for a
face by the geometry kernel (the kernel itself is a black box; only the
classification result matters to `Fem::Constraint::getCylinder`, whose
implementation is absent from the excerpt). -/
inductive SurfaceKind where
  | cylinder (radius : ℚ) (axisPoint axisDir : Vec3)
  | plane
  | other
deriving DecidableEq, Repr

/-- Modelled from the spec: a face handle as consumed by
`Fem::Constraint::getCylinder`: its underlying surface and its
parametric bounds, with v the axial parameter of a cylindrical
surface. -/
structure FaceGeom where
  surface : SurfaceKind
  uMin : ℚ
  uMax : ℚ
  vMin : ℚ
  vMax : ℚ
deriving DecidableEq, Repr

/-- The data extracted from a cylindrical face: radius, axial extent,
base point and axis direction. -/
structure CylInfo where
  radius : ℚ
  height : ℚ
  base : Vec3
  axis : Vec3
deriving DecidableEq, Repr

/-- Whether a surface is cylindrical. -/
def SurfaceKind.isCylinder : SurfaceKind → Bool
  | SurfaceKind.cylinder _ _ _ => true
  | _ => false

/-- Modelled from the spec: `Fem::Constraint::getCylinder`
(implementation absent from the excerpt).  A non-cylindrical surface
yields `none` (the `false` return); a cylindrical surface yields the
surface's radius, the axial extent from the face's parametric bounds,
the base point on the axis at the lower bound, and the surface's axis
direction. -/
def getCylinder (f : FaceGeom) : Option CylInfo :=
  match f.surface with
  | SurfaceKind.cylinder r p d =>
      some ⟨r, f.vMax - f.vMin, p + f.vMin • d, d⟩
  | _ => none

/-- Claim C8: for a face whose surface is not cylindrical, `getCylinder`
returns the failure result (`none`, a total, non-exceptional outcome);
for a cylindrical face it returns the surface's radius, the axial extent
(height) from the face's parametric bounds, the base point at the lower
parametric bound, and the surface's axis direction, which is a unit
vector whenever the surface's stored axis direction is. -/
theorem getCylinder_spec :
    ∀ f : FaceGeom,
      (f.surface.isCylinder = false → getCylinder f = none) ∧
      (∀ (r : ℚ) (p d : Vec3), f.surface = SurfaceKind.cylinder r p d →
        getCylinder f = some ⟨r, f.vMax - f.vMin, p + f.vMin • d, d⟩) ∧
      (∀ (r : ℚ) (p d : Vec3) (c : CylInfo), f.surface = SurfaceKind.cylinder r p d →
        getCylinder f = some c → Vec3.normSq d = 1 → Vec3.normSq c.axis = 1) := by
  intro f
  have hcyl : ∀ (r : ℚ) (p d : Vec3), f.surface = SurfaceKind.cylinder r p d →
      getCylinder f = some ⟨r, f.vMax - f.vMin, p + f.vMin • d, d⟩ := by
    intro r p d h
    unfold getCylinder
    rw [h]
  refine ⟨?_, hcyl, ?_⟩
  · intro h
    unfold getCylinder
    cases hs : f.surface with
    | cylinder r p d => rw [hs] at h; simp [SurfaceKind.isCylinder] at h
    | plane => rfl
    | other => rfl
  · intro r p d c h hc hu
    rw [hcyl r p d h] at hc
    obtain rfl : (⟨r, f.vMax - f.vMin, p + f.vMin • d, d⟩ : CylInfo) = c :=
      Option.some.inj hc
    exact hu

/-- Witness for C8: a planar face yields `none`; a concrete cylindrical
face with unit axis yields its radius, height, base and unit axis. -/
theorem getCylinder_spec_witness :
    getCylinder ⟨SurfaceKind.plane, 0, 1, 0, 1⟩ = none ∧
    getCylinder ⟨SurfaceKind.cylinder 2 ⟨0, 0, 0⟩ ⟨0, 0, 1⟩, 0, 1, 3, 7⟩ =
      some ⟨2, 4, ⟨0, 0, 3⟩, ⟨0, 0, 1⟩⟩ ∧
    Vec3.normSq (⟨0, 0, 1⟩ : Vec3) = 1 := by
  obtain ⟨a1, a2, a3⟩ := getCylinder_spec ⟨SurfaceKind.plane, 0, 1, 0, 1⟩
  obtain ⟨b1, b2, b3⟩ :=
    getCylinder_spec ⟨SurfaceKind.cylinder 2 ⟨0, 0, 0⟩ ⟨0, 0, 1⟩, 0, 1, 3, 7⟩
  have h2 := b2 2 ⟨0, 0, 0⟩ ⟨0, 0, 1⟩ rfl
  refine ⟨a1 rfl, ?_, ?_⟩
  · rw [h2]
    simp only [Option.some.injEq, CylInfo.mk.injEq]
    norm_num
    apply vec3_eq <;> simp
  · exact b3 2 ⟨0, 0, 0⟩ ⟨0, 0, 1⟩ _ rfl h2 (by norm_num [Vec3.normSq])

/-- The state of a `TechDraw::DrawPage` relevant to the verified member
functions: its `NextBalloonIndex` integer property and its `Scale`
float property (modelled exactly as a rational). -/
structure DrawPage where
  NextBalloonIndex : ℤ
  Scale : ℚ
deriving DecidableEq, Repr

/-- Translated from `TechDraw::DrawPage::getNextBalloonIndex` in the
source: it reads the current `NextBalloonIndex` property value, stores
that value plus one back into the property, and returns the value it
read. -/
def getNextBalloonIndex (p : DrawPage) : ℤ × DrawPage :=
  (p.NextBalloonIndex, { p with NextBalloonIndex := p.NextBalloonIndex + 1 })

/-- `n` successive calls to `getNextBalloonIndex`: the list of returned
indices together with the final page state. -/
def balloonCalls : ℕ → DrawPage → List ℤ × DrawPage
  | 0, p => ([], p)
  | Nat.succ n, p =>
      ((getNextBalloonIndex p).1 :: (balloonCalls n (getNextBalloonIndex p).2).1,
        (balloonCalls n (getNextBalloonIndex p).2).2)

lemma balloonCalls_spec (n : ℕ) :
    ∀ p : DrawPage,
      (balloonCalls n p).1 =
        (List.range n).map (fun (i : ℕ) => p.NextBalloonIndex + (i : ℤ)) ∧
      (balloonCalls n p).2.NextBalloonIndex = p.NextBalloonIndex + (n : ℤ) := by
  induction n with
  | zero => intro p; simp [balloonCalls]
  | succ m ih =>
      intro p
      obtain ⟨ih1, ih2⟩ := ih (getNextBalloonIndex p).2
      constructor
      · show (getNextBalloonIndex p).1 :: (balloonCalls m (getNextBalloonIndex p).2).1 = _
        rw [ih1, List.range_succ_eq_map, List.map_cons, List.map_map]
        have hf : (fun (i : ℕ) => (getNextBalloonIndex p).2.NextBalloonIndex + (i : ℤ)) =
            ((fun (i : ℕ) => p.NextBalloonIndex + (i : ℤ)) ∘ Nat.succ) := by
          funext i
          show p.NextBalloonIndex + 1 + (i : ℤ) = p.NextBalloonIndex + ((i + 1 : ℕ) : ℤ)
          push_cast
          ring
        rw [hf]
        congr 1
        simp [getNextBalloonIndex]
      · show (balloonCalls m (getNextBalloonIndex p).2).2.NextBalloonIndex = _
        rw [ih2]
        show p.NextBalloonIndex + 1 + (m : ℤ) = p.NextBalloonIndex + ((m + 1 : ℕ) : ℤ)
        push_cast
        ring

/-- Claim C9: every call to `getNextBalloonIndex` returns the current
value of the `NextBalloonIndex` property and increments the stored
property by exactly one (leaving the rest of the page untouched), so `n`
successive calls starting from stored value `k` return `k, k+1, ...,
k+n-1` and leave the property at `k+n`. -/
theorem getNextBalloonIndex_spec :
    ∀ (p : DrawPage) (n : ℕ),
      (getNextBalloonIndex p).1 = p.NextBalloonIndex ∧
      (getNextBalloonIndex p).2.NextBalloonIndex = p.NextBalloonIndex + 1 ∧
      (getNextBalloonIndex p).2.Scale = p.Scale ∧
      (balloonCalls n p).1 =
        (List.range n).map (fun (i : ℕ) => p.NextBalloonIndex + (i : ℤ)) ∧
      (balloonCalls n p).2.NextBalloonIndex = p.NextBalloonIndex + (n : ℤ) := by
  intro p n
  obtain ⟨h1, h2⟩ := balloonCalls_spec n p
  exact ⟨rfl, rfl, rfl, h1, h2⟩

/-- Translated from `TechDraw::DrawPage::handleChangedPropertyType` in
the source, restricted to the `Scale` property: when the property stored
in the file has the plain `App::PropertyFloat` type (`typeIsFloat`), the
restored value `tmpValue` is kept if it is strictly positive and
replaced by 1.0 otherwise; when the stored type is not Float, the page
is left unchanged (the source only logs a message). -/
def handleChangedPropertyType (p : DrawPage) (typeIsFloat : Bool) (tmpValue : ℚ) :
    DrawPage :=
  if typeIsFloat then
    if 0 < tmpValue then { p with Scale := tmpValue }
    else { p with Scale := 1 }
  else p

/-- Claim C10: restoring an old plain-Float `Scale` through
`handleChangedPropertyType` keeps a strictly positive stored value,
replaces any non-positive stored value by 1.0, and therefore always
leaves the page's `Scale` strictly positive. -/
theorem handleChangedPropertyType_scale :
    ∀ (p : DrawPage) (v : ℚ),
      (0 < v → (handleChangedPropertyType p true v).Scale = v) ∧
      (v ≤ 0 → (handleChangedPropertyType p true v).Scale = 1) ∧
      0 < (handleChangedPropertyType p true v).Scale := by
  intro p v
  refine ⟨?_, ?_, ?_⟩
  · intro h
    simp [handleChangedPropertyType, h]
  · intro h
    simp [handleChangedPropertyType, not_lt.mpr h]
  · by_cases h : 0 < v
    · simp [handleChangedPropertyType, h]
    · simp [handleChangedPropertyType, h]

/-- Witness for C10 at concrete inputs: value 2 is kept, value -3 is
replaced by 1, and the restored scale is positive. -/
theorem handleChangedPropertyType_scale_witness :
    (handleChangedPropertyType ⟨1, 1⟩ true 2).Scale = 2 ∧
    (handleChangedPropertyType ⟨1, 1⟩ true (-3)).Scale = 1 ∧
    0 < (handleChangedPropertyType ⟨1, 1⟩ true (-3)).Scale := by
  obtain ⟨a1, a2, a3⟩ := handleChangedPropertyType_scale ⟨1, 1⟩ 2
  obtain ⟨b1, b2, b3⟩ := handleChangedPropertyType_scale ⟨1, 1⟩ (-3)
  exact ⟨a1 (by norm_num), b2 (by norm_num), b3⟩
